import Mathlib

/-!
Verification development for `spotify_youtube_downloader` (`src/spotify_youtube_downloader/main.py`).

The Python source is shallowly embedded: pure helper functions become Lean
functions on `String` / `List Char`, the stateful download loop becomes explicit
state passing over a `DispatchState` record, subprocess execution is an oracle
`List String → Option Int` (`none` models the subprocess failing to start, e.g.
the executable being absent; `some code` models an exit status), and Python sets
are modelled as lists with membership.  Characters are modelled at ASCII level:
the regex classes `\w` and `\s` of `sanitize_filename` are read as their ASCII
subsets.
-/

/-- Word characters of the regex class in `sanitize_filename` (main.py line 129),
an ASCII model of Python `\w`: alphanumerics and the underscore. -/
def isWordChar (c : Char) : Bool := c.isAlphanum || c = '_'

/-- Whitespace characters, an ASCII model of Python `\s` (and of `str.strip`):
space, tab, newline, carriage return, vertical tab, form feed. -/
def isSpaceChar (c : Char) : Bool :=
  c = ' ' || c = '\t' || c = '\n' || c = '\r' || c = '\x0b' || c = '\x0c'

/-- Characters kept by `sanitize_filename`: the class `[\w\s\-\.]` of
main.py line 129 (alphanumeric, whitespace, hyphen, underscore, period). -/
def legalChar (c : Char) : Bool := isWordChar c || isSpaceChar c || c = '-' || c = '.'

/-- main.py line 129: `re.sub(r'[^\w\s\-\.]', '_', name)` replaces each character
outside the class with one underscore; the pattern matches single characters, so
the substitution is a character map. -/
def replaceIllegal (c : Char) : Char := if legalChar c then c else '_'

/-- main.py line 130, first half: `re.sub(r'\s+', ' ', name)` turns each maximal
whitespace run into one space.  The Boolean flag records whether the previous
character was inside a whitespace run. -/
def collapseAux : Bool → List Char → List Char
  | _, [] => []
  | prev, c :: cs =>
    if isSpaceChar c then
      (if prev then collapseAux true cs else ' ' :: collapseAux true cs)
    else c :: collapseAux false cs

/-- main.py line 130: collapse whitespace runs (see `collapseAux`). -/
def collapseSpaces (l : List Char) : List Char := collapseAux false l

/-- Python `str.strip()`: drop leading and trailing whitespace
(main.py line 130, second half). -/
def pyStrip (l : List Char) : List Char :=
  List.rdropWhile isSpaceChar (List.dropWhile isSpaceChar l)

/-- Value of the local `name` variable of `sanitize_filename` after lines 129-130,
before the truncation / default step of line 131. -/
def sanitizeCore (name : List Char) : List Char :=
  pyStrip (collapseSpaces (name.map replaceIllegal))

/-- main.py lines 125-131, `sanitize_filename`: replace illegal characters by
underscores, collapse whitespace, strip, then `name[:150] if name else "Untitled"`. -/
def sanitize_filename (name : List Char) : List Char :=
  if sanitizeCore name = [] then "Untitled".toList else (sanitizeCore name).take 150

/-- String-level wrapper of Python `str.strip()`. -/
def pyStripStr (s : String) : String := (pyStrip s.toList).asString

/-- String-level wrapper of `sanitize_filename`. -/
def sanitizeStr (s : String) : String := (sanitize_filename s.toList).asString

/-- One Spotify episode record as built by `fetch_episodes_from_playlist` /
`fetch_episodes_from_show` (main.py lines 74, 95): name, id, description. -/
structure Episode where
  name : String
  id : String
  description : String
deriving DecidableEq

/-- One download-task dictionary (main.py lines 117, 303).  The dispatcher reads
the name and id fields with `dict.get` and a default (main.py lines 320-321), so
these two fields are modelled as `Option` to represent possible absence. -/
structure DownloadTask where
  link : String
  episode_name : Option String
  episode_id : Option String
deriving DecidableEq

/-- main.py line 321: `task.get('episode_id', 'UnknownID')`. -/
def trackingIdOf (t : DownloadTask) : String := t.episode_id.getD "UnknownID"

/-- main.py line 320: `task.get('episode_name', 'Unknown Item')`. -/
def itemNameOf (t : DownloadTask) : String := t.episode_name.getD "Unknown Item"

/-- Inner loop of main.py lines 300-304: for each extracted link, strip it and,
when it is non-empty and not yet in `unique_links_found`, append one task for
the current episode and add the link to the set.  Returns the produced tasks
and the updated set (modelled as a list). -/
def addLinks (e : Episode) : List String → List String → List DownloadTask × List String
  | [], seen => ([], seen)
  | link :: rest, seen =>
    let clean := pyStripStr link
    if clean ≠ "" ∧ clean ∉ seen then
      let out := addLinks e rest (clean :: seen)
      (⟨clean, some e.name, some e.id⟩ :: out.1, out.2)
    else addLinks e rest seen

/-- Episode loop of main.py lines 295-304: skip episodes with an empty
description, otherwise run the link extractor over the description and feed the
links through `addLinks`, threading the `unique_links_found` set across
episodes.  The extractor (`find_youtube_links`, a regex scan) is a parameter. -/
def normalizeTasks (extract : String → List String) : List Episode → List String → List DownloadTask
  | [], _ => []
  | e :: es, seen =>
    if e.description = "" then normalizeTasks extract es seen
    else
      let out := addLinks e (extract e.description) seen
      out.1 ++ normalizeTasks extract es out.2

/-- Task Normalizer for catalog-sourced episodes (main.py lines 294-304),
starting from the empty `unique_links_found` set of line 294. -/
def normalizeRun (extract : String → List String) (episodes : List Episode) : List DownloadTask :=
  normalizeTasks extract episodes []

/-- Result of Python `urlparse` / `parse_qs` on the input URL, which
`get_id_and_type_from_url` consumes (main.py lines 26-27, 48): network location,
path, parsed query parameters, and the original URL string (returned whole for
video-platform playlists). -/
structure ParsedUrl where
  netloc : String
  path : String
  query : List (String × List String)
  original : String
deriving DecidableEq

/-- Lookup of a query parameter in the `parse_qs` result. -/
def lookupQ (q : List (String × List String)) (key : String) : Option (List String) :=
  (q.find? (fun p => p.1 = key)).map (fun p => p.2)

/-- Python `str.split(sep)` for a one-character separator, over the character
list (e.g. `"a/b".split('/') = ['a','b']`, `"".split('/') = ['']`). -/
def splitOnCharList (sep : Char) : List Char → List (List Char)
  | [] => [[]]
  | c :: cs =>
    let r := splitOnCharList sep cs
    if c = sep then [] :: r else (c :: r.headD []) :: r.tail

/-- String-level wrapper of `splitOnCharList`. -/
def splitStr (sep : Char) (s : String) : List String :=
  (splitOnCharList sep s.toList).map List.asString

/-- Python `str.lower()` (ASCII model, as in `Char.toLower`). -/
def toLowerStr (s : String) : String := (s.toList.map Char.toLower).asString

/-- Python `s.split('?')[0]` (main.py lines 36, 39, 42). -/
def stripQueryArtifact (s : String) : String := (splitStr '?' s).headD ""

/-- main.py line 28: `[part for part in parsed_url.path.split('/') if part]`. -/
def pathPartsOf (u : ParsedUrl) : List String :=
  (splitStr '/' u.path).filter (fun p => p ≠ "")

/-- main.py lines 24-52, `get_id_and_type_from_url`: classify the URL into
(identifier, type).  Spotify hosts are inspected for the path tokens
`playlist` / `show` / `episode` in that priority order, taking the path segment
after the first occurrence of the token; YouTube hosts require a non-empty
`list` query parameter and return the original URL.  `none` models the
`None, None` sentinel.  This definition is the Spotify branch (the `try` block
of lines 32-44): the `except` clause is dead there, since `index` is guarded by
membership and the segment access is bounds-checked. -/
def classifySpotifyPath (path_parts : List String) : Option (String × String) :=
  if "playlist" ∈ path_parts then
    let id_index := path_parts.indexOf "playlist" + 1
    if id_index < path_parts.length then
      some (stripQueryArtifact (path_parts.getD id_index ""), "spotify_playlist")
    else none
  else if "show" ∈ path_parts then
    let id_index := path_parts.indexOf "show" + 1
    if id_index < path_parts.length then
      some (stripQueryArtifact (path_parts.getD id_index ""), "spotify_show")
    else none
  else if "episode" ∈ path_parts then
    let id_index := path_parts.indexOf "episode" + 1
    if id_index < path_parts.length then
      some (stripQueryArtifact (path_parts.getD id_index ""), "spotify_episode")
    else none
  else none

/-- main.py lines 24-52 continued: host dispatch of `get_id_and_type_from_url`. -/
def get_id_and_type_from_url (u : ParsedUrl) : Option (String × String) :=
  let netloc := toLowerStr u.netloc
  if netloc = "open.spotify.com" ∨ netloc = "spotify.link" then
    classifySpotifyPath (pathPartsOf u)
  else if netloc = "www.youtube.com" ∨ netloc = "youtube.com" ∨ netloc = "m.youtube.com"
      ∨ netloc = "music.youtube.com" ∨ netloc = "youtu.be" then
    match lookupQ u.query "list" with
    | some vs => if vs ≠ [] then some (u.original, "youtube_playlist") else none
    | none => none
  else none

/-- Result of a completed subprocess: exit status and captured standard output
(`subprocess.run(..., capture_output=True)`, main.py line 111). -/
structure ProcResult where
  returncode : Int
  stdout : String
deriving DecidableEq

/-- Join character lists with a separator (used to model the `maxsplit`
remainder of Python `split(';', 2)`). -/
def joinSepChar (sep : Char) : List (List Char) → List Char
  | [] => []
  | [x] => x
  | x :: y :: xs => x ++ sep :: joinSepChar sep (y :: xs)

/-- Python `line.split(';', 2)` (main.py line 116): at most two splits, the
remainder after the second separator is kept whole (so the result has at most
three parts, and exactly three as soon as the line holds two separators). -/
def splitSemiMax2 (line : String) : List String :=
  match splitOnCharList ';' line.toList with
  | a :: b :: c :: rest => [a.asString, b.asString, (joinSepChar ';' (c :: rest)).asString]
  | xs => xs.map List.asString

/-- Per-line parsing step of main.py lines 116-118: a line splitting (with
`split(';', 2)`) into exactly three parts yields one task dictionary with the
trimmed link, title and id; any other line is skipped. -/
def processLine (line : String) : Option DownloadTask :=
  let parts := splitSemiMax2 line
  if parts.length = 3 then
    some ⟨pyStripStr (parts.getD 2 ""), some (pyStripStr (parts.getD 1 "")),
      some (pyStripStr (parts.getD 0 ""))⟩
  else none

/-- main.py lines 104-122, `fetch_youtube_playlist_items`, given the outcome of
the yt-dlp metadata invocation (`none` models `FileNotFoundError` or another
exception while starting it).  Returns `none` for the fatal cases, otherwise the
parsed item list: nonzero exit is fatal, empty stdout is an empty result, and
the stripped stdout is split into lines, each fed through `processLine`. -/
def fetch_youtube_playlist_items (res : Option ProcResult) : Option (List DownloadTask) :=
  match res with
  | none => none
  | some r =>
    if r.returncode ≠ 0 then none
    else if r.stdout = "" then some []
    else some ((splitStr '\n' (pyStripStr r.stdout)).filterMap processLine)

/-- Command-line options consumed by the dispatcher (main.py lines 254-257):
output directory, download format, yt-dlp executable path. -/
structure RunConfig where
  output_dir : String
  format : String
  yt_dlp_path : String
deriving DecidableEq

/-- Model of `os.path.join(dir, name)` for the paths built in main.py
lines 256 and 336: append with a single separator. -/
def joinPath (a b : String) : String :=
  if a = "" then b
  else if a.toList.getLast? = some '/' then a ++ b
  else a ++ "/" ++ b

/-- main.py lines 165-197, `build_yt_dlp_command`: placeholder executable,
optional cookie flags, format-selection flags (with the audio flags as the
fallback for an unknown format), then output template and link. -/
def build_yt_dlp_command (link output_template_path download_format : String)
    (use_cookies : Bool) : List String :=
  let base1 := ["yt-dlp"]
  let base2 := if use_cookies then base1 ++ ["--cookies-from-browser", "firefox"] else base1
  let base3 :=
    if download_format = "audio" then
      base2 ++ ["-x", "--audio-format", "mp3", "--audio-quality", "0"]
    else if download_format = "video" then
      base2 ++ ["-f", "bestvideo[ext=mp4]+bestaudio[ext=m4a]/best[ext=mp4]/best",
        "--merge-output-format", "mp4"]
    else
      base2 ++ ["-x", "--audio-format", "mp3", "--audio-quality", "0"]
  base3 ++ ["-o", output_template_path, link]

/-- main.py lines 154-156 (`run_yt_dlp_command`): if the first element of the
command list is not the configured executable, insert the executable in front
(the built commands are never empty; the empty case is modelled as the bare
executable). -/
def withExecutable (ytExe : String) : List String → List String
  | [] => [ytExe]
  | c :: cs => if c = ytExe then c :: cs else ytExe :: c :: cs

/-- Mutable state of the download loop of `run` (main.py lines 314-316):
the in-memory id set (modelled as a list) and the counters, together with the
on-disk ledger file contents (the lines appended by `log_downloaded_id`,
main.py lines 146-151) and the ordered trace of attempted yt-dlp invocations
(each entry one command list handed to `subprocess.run`). -/
structure DispatchState where
  downloaded_ids : List String
  ledger : List String
  success_count : Nat
  skipped_count : Nat
  failed_count : Nat
  yt_dlp_missing : Bool
  trace : List (List String)
deriving DecidableEq

/-- Output template of main.py lines 332-336: sanitized name and tracking id
embedded in the filename pattern, joined onto the output directory. -/
def templateOf (cfg : RunConfig) (t : DownloadTask) : String :=
  joinPath cfg.output_dir
    ("%(upload_date)s - " ++ sanitizeStr (itemNameOf t) ++ " [" ++ trackingIdOf t
      ++ "].%(ext)s")

/-- First-attempt command of main.py line 342 (no cookies), after the
executable fix-up of `run_yt_dlp_command`. -/
def cmd1Of (cfg : RunConfig) (t : DownloadTask) : List String :=
  withExecutable cfg.yt_dlp_path
    (build_yt_dlp_command t.link (templateOf cfg t) cfg.format false)

/-- Second-attempt command of main.py line 353 (with Firefox cookies), after
the executable fix-up of `run_yt_dlp_command`. -/
def cmd2Of (cfg : RunConfig) (t : DownloadTask) : List String :=
  withExecutable cfg.yt_dlp_path
    (build_yt_dlp_command t.link (templateOf cfg t) cfg.format true)

/-- One iteration of the download loop, main.py lines 318-375: the
`UnknownID` gate, the dedup gate, the two download attempts (plain, then with
cookies), and the tracking update.  `exec` is the subprocess oracle (`none`
models `run_yt_dlp_command` returning `None`, i.e. the executable failing to
start).  The returned Boolean is the `break` flag of lines 345/356. -/
def stepTask (exec : List String → Option Int) (cfg : RunConfig)
    (st : DispatchState) (t : DownloadTask) : DispatchState × Bool :=
  let tracking_id := trackingIdOf t
  if tracking_id = "UnknownID" then
    ({ st with failed_count := st.failed_count + 1 }, false)
  else if tracking_id ∈ st.downloaded_ids then
    ({ st with skipped_count := st.skipped_count + 1 }, false)
  else
    let cmd1 := cmd1Of cfg t
    let st1 := { st with trace := st.trace ++ [cmd1] }
    match exec cmd1 with
    | none => ({ st1 with yt_dlp_missing := true }, true)
    | some rc1 =>
      if rc1 = 0 then
        ({ st1 with ledger := st1.ledger ++ [tracking_id],
                    downloaded_ids := tracking_id :: st1.downloaded_ids,
                    success_count := st1.success_count + 1 }, false)
      else
        let cmd2 := cmd2Of cfg t
        let st2 := { st1 with trace := st1.trace ++ [cmd2] }
        match exec cmd2 with
        | none => ({ st2 with yt_dlp_missing := true }, true)
        | some rc2 =>
          if rc2 = 0 then
            ({ st2 with ledger := st2.ledger ++ [tracking_id],
                        downloaded_ids := tracking_id :: st2.downloaded_ids,
                        success_count := st2.success_count + 1 }, false)
          else ({ st2 with failed_count := st2.failed_count + 1 }, false)

/-- The download loop of main.py lines 318-375: process tasks in order,
stopping as soon as an iteration sets the `break` flag. -/
def runTasks (exec : List String → Option Int) (cfg : RunConfig) :
    DispatchState → List DownloadTask → DispatchState
  | st, [] => st
  | st, t :: ts =>
    let out := stepTask exec cfg st t
    if out.2 then out.1 else runTasks exec cfg out.1 ts

/-- Total printed by the run summary, main.py line 384:
`success_count + skipped_count + failed_count`. -/
def printedTotal (st : DispatchState) : Nat :=
  st.success_count + st.skipped_count + st.failed_count

/-- Initial dispatcher state for a fresh run with the in-memory set loaded
from the ledger file (main.py lines 314-315). -/
def initState (ids : List String) : DispatchState := ⟨ids, [], 0, 0, 0, false, []⟩

/-- Rejoin of semicolon-delimited fields (for describing the remainder that
Python `split(';', 2)` keeps whole). -/
def joinSemis (xs : List String) : String :=
  (joinSepChar ';' (xs.map String.toList)).asString

/-- Adjacent characters are not both whitespace (the collapse invariant). -/
def NoTwoSpaces (l : List Char) : Prop :=
  List.Chain' (fun a b => ¬(isSpaceChar a = true ∧ isSpaceChar b = true)) l

/-- A whitespace-collapsed list: every whitespace character is a plain space
and no two adjacent characters are whitespace. -/
def Collapsed (l : List Char) : Prop :=
  (∀ c ∈ l, isSpaceChar c = true → c = ' ') ∧ NoTwoSpaces l

/-- C5, counterexample: the sanitizer maps the all-illegal input "???" to
"___" (each illegal character becomes an underscore), not to the fixed default
string "Untitled" (main.py lines 129, 131). -/
theorem c5_counterexample :
    sanitize_filename "???".toList ≠ "Untitled".toList ∧
      sanitize_filename "???".toList = "___".toList := by
  exact ⟨by decide, by decide⟩

/-- C5, amended: for every input the sanitizer output has length at most 150
and is never empty; an all-illegal input such as "???" yields one underscore
per character, and the fixed default string appears exactly when the
replaced-collapsed-trimmed intermediate is empty (for instance on the empty or
all-whitespace input). -/
theorem c5_amended :
    (∀ name : List Char,
        (sanitize_filename name).length ≤ 150 ∧ sanitize_filename name ≠ []) ∧
      sanitize_filename "???".toList = "___".toList ∧
      sanitize_filename "".toList = "Untitled".toList ∧
      sanitize_filename "   ".toList = "Untitled".toList := by
  refine ⟨fun name => ?_, by decide, by decide, by decide⟩
  unfold sanitize_filename
  split
  · exact ⟨by decide, by decide⟩
  · rename_i h
    exact ⟨by simp [List.length_take], by simp [List.take_eq_nil_iff, h]⟩

/-- C3, counterexample: the URL open.spotify.com/episode/abc has neither
"playlist" nor "show" among its path segments, yet the classifier does not
return the unrecognized sentinel: it classifies it as a spotify_episode
(main.py lines 40-42). -/
theorem c3_counterexample :
    "playlist" ∉ pathPartsOf ⟨"open.spotify.com", "/episode/abc", [], "u"⟩ ∧
      "show" ∉ pathPartsOf ⟨"open.spotify.com", "/episode/abc", [], "u"⟩ ∧
      get_id_and_type_from_url ⟨"open.spotify.com", "/episode/abc", [], "u"⟩ =
        some ("abc", "spotify_episode") := by
  exact ⟨by decide, by decide, by decide⟩

/-- Helper: on a catalog (Spotify) host, `get_id_and_type_from_url` is the
Spotify path classification. -/
theorem get_id_spotify_host (u : ParsedUrl)
    (hhost : toLowerStr u.netloc = "open.spotify.com" ∨ toLowerStr u.netloc = "spotify.link") :
    get_id_and_type_from_url u = classifySpotifyPath (pathPartsOf u) := by
  obtain h | h := hhost <;> simp [get_id_and_type_from_url, h]

/-- C3, amended: on a catalog-service host, a URL whose path segments contain
none of the tokens "playlist", "show", "episode" is unrecognized, as is one
where the (priority-)matched token is the last segment; the successful catalog
classifications are spotify_playlist, spotify_show and spotify_episode (the
code additionally recognizes single catalog episodes, beyond the two container
categories of the claim). -/
theorem c3_amended (u : ParsedUrl)
    (hhost : toLowerStr u.netloc = "open.spotify.com" ∨ toLowerStr u.netloc = "spotify.link") :
    (("playlist" ∉ pathPartsOf u ∧ "show" ∉ pathPartsOf u ∧ "episode" ∉ pathPartsOf u) →
        get_id_and_type_from_url u = none) ∧
      (∀ r, get_id_and_type_from_url u = some r →
        r.2 = "spotify_playlist" ∨ r.2 = "spotify_show" ∨ r.2 = "spotify_episode") ∧
      (("playlist" ∈ pathPartsOf u ∧
          ¬ (pathPartsOf u).indexOf "playlist" + 1 < (pathPartsOf u).length) →
        get_id_and_type_from_url u = none) ∧
      (("playlist" ∉ pathPartsOf u ∧ "show" ∈ pathPartsOf u ∧
          ¬ (pathPartsOf u).indexOf "show" + 1 < (pathPartsOf u).length) →
        get_id_and_type_from_url u = none) ∧
      (("playlist" ∉ pathPartsOf u ∧ "show" ∉ pathPartsOf u ∧ "episode" ∈ pathPartsOf u ∧
          ¬ (pathPartsOf u).indexOf "episode" + 1 < (pathPartsOf u).length) →
        get_id_and_type_from_url u = none) := by
  rw [get_id_spotify_host u hhost]
  refine ⟨?_, ?_, ?_, ?_, ?_⟩
  · rintro ⟨h1, h2, h3⟩
    simp [classifySpotifyPath, h1, h2, h3]
  · intro r hr
    obtain ⟨r1, r2⟩ := r
    unfold classifySpotifyPath at hr
    split at hr
    · by_cases hc : List.indexOf "playlist" (pathPartsOf u) + 1 < (pathPartsOf u).length
      · simp [hc] at hr
        simp_all
      · simp [hc] at hr
    · split at hr
      · by_cases hc : List.indexOf "show" (pathPartsOf u) + 1 < (pathPartsOf u).length
        · simp [hc] at hr
          simp_all
        · simp [hc] at hr
      · split at hr
        · by_cases hc : List.indexOf "episode" (pathPartsOf u) + 1 < (pathPartsOf u).length
          · simp [hc] at hr
            simp_all
          · simp [hc] at hr
        · cases hr
  · rintro ⟨h1, h2⟩
    simp [classifySpotifyPath, h1, h2]
  · rintro ⟨h1, h2, h3⟩
    simp [classifySpotifyPath, h1, h2, h3]
  · rintro ⟨h1, h2, h3, h4⟩
    simp [classifySpotifyPath, h1, h2, h3, h4]

/-- C3, witness for the amended theorem: concrete catalog URLs hitting the
no-token case, the token-last case, and the episode classification. -/
theorem c3_witness :
    get_id_and_type_from_url ⟨"open.spotify.com", "/track/abc", [], "u"⟩ = none ∧
      get_id_and_type_from_url ⟨"open.spotify.com", "/abc/playlist", [], "u"⟩ = none := by
  constructor
  · exact (c3_amended ⟨"open.spotify.com", "/track/abc", [], "u"⟩ (Or.inl (by decide))).1
      (by decide)
  · exact (c3_amended ⟨"open.spotify.com", "/abc/playlist", [], "u"⟩
      (Or.inl (by decide))).2.2.1 (by decide)

/-- Unfolding of one loop iteration of main.py lines 318-375. -/
theorem runTasks_cons (exec : List String → Option Int) (cfg : RunConfig)
    (st : DispatchState) (t : DownloadTask) (ts : List DownloadTask) :
    runTasks exec cfg st (t :: ts) =
      if (stepTask exec cfg st t).2 then (stepTask exec cfg st t).1
      else runTasks exec cfg (stepTask exec cfg st t).1 ts := rfl

/-- Exhaustive case analysis of one dispatcher iteration: the `UnknownID`
gate, the dedup gate, abort on a failed-to-start first attempt, first-attempt
success, and (after a nonzero first attempt) abort, success or failure of the
cookie fallback. -/
theorem stepTask_cases (exec : List String → Option Int) (cfg : RunConfig)
    (st : DispatchState) (t : DownloadTask) :
    (trackingIdOf t = "UnknownID" ∧
      stepTask exec cfg st t = ({ st with failed_count := st.failed_count + 1 }, false)) ∨
    (trackingIdOf t ≠ "UnknownID" ∧ trackingIdOf t ∈ st.downloaded_ids ∧
      stepTask exec cfg st t = ({ st with skipped_count := st.skipped_count + 1 }, false)) ∨
    (trackingIdOf t ≠ "UnknownID" ∧ trackingIdOf t ∉ st.downloaded_ids ∧
      exec (cmd1Of cfg t) = none ∧
      stepTask exec cfg st t =
        ({ st with trace := st.trace ++ [cmd1Of cfg t], yt_dlp_missing := true }, true)) ∨
    (trackingIdOf t ≠ "UnknownID" ∧ trackingIdOf t ∉ st.downloaded_ids ∧
      exec (cmd1Of cfg t) = some 0 ∧
      stepTask exec cfg st t =
        ({ st with trace := st.trace ++ [cmd1Of cfg t],
                   ledger := st.ledger ++ [trackingIdOf t],
                   downloaded_ids := trackingIdOf t :: st.downloaded_ids,
                   success_count := st.success_count + 1 }, false)) ∨
    (trackingIdOf t ≠ "UnknownID" ∧ trackingIdOf t ∉ st.downloaded_ids ∧
      (∃ rc1, exec (cmd1Of cfg t) = some rc1 ∧ rc1 ≠ 0) ∧
      ((exec (cmd2Of cfg t) = none ∧
          stepTask exec cfg st t =
            ({ st with trace := st.trace ++ [cmd1Of cfg t, cmd2Of cfg t],
                       yt_dlp_missing := true }, true)) ∨
        (exec (cmd2Of cfg t) = some 0 ∧
          stepTask exec cfg st t =
            ({ st with trace := st.trace ++ [cmd1Of cfg t, cmd2Of cfg t],
                       ledger := st.ledger ++ [trackingIdOf t],
                       downloaded_ids := trackingIdOf t :: st.downloaded_ids,
                       success_count := st.success_count + 1 }, false)) ∨
        (∃ rc2, exec (cmd2Of cfg t) = some rc2 ∧ rc2 ≠ 0 ∧
          stepTask exec cfg st t =
            ({ st with trace := st.trace ++ [cmd1Of cfg t, cmd2Of cfg t],
                       failed_count := st.failed_count + 1 }, false)))) := by
  by_cases h1 : trackingIdOf t = "UnknownID"
  · exact Or.inl ⟨h1, by simp [stepTask, h1]⟩
  by_cases h2 : trackingIdOf t ∈ st.downloaded_ids
  · exact Or.inr (Or.inl ⟨h1, h2, by simp [stepTask, h1, h2]⟩)
  rcases he1 : exec (cmd1Of cfg t) with _ | rc1
  · exact Or.inr (Or.inr (Or.inl ⟨h1, h2, rfl, by simp [stepTask, h1, h2, he1]⟩))
  by_cases hrc1 : rc1 = 0
  · subst hrc1
    exact Or.inr (Or.inr (Or.inr (Or.inl ⟨h1, h2, rfl, by simp [stepTask, h1, h2, he1]⟩)))
  rcases he2 : exec (cmd2Of cfg t) with _ | rc2
  · refine Or.inr (Or.inr (Or.inr (Or.inr ⟨h1, h2, ⟨rc1, rfl, hrc1⟩, Or.inl ⟨rfl, ?_⟩⟩)))
    simp [stepTask, h1, h2, he1, hrc1, he2]
  by_cases hrc2 : rc2 = 0
  · subst hrc2
    refine Or.inr (Or.inr (Or.inr (Or.inr ⟨h1, h2, ⟨rc1, rfl, hrc1⟩, Or.inr (Or.inl ⟨rfl, ?_⟩)⟩)))
    simp [stepTask, h1, h2, he1, hrc1, he2]
  refine Or.inr (Or.inr (Or.inr (Or.inr
    ⟨h1, h2, ⟨rc1, rfl, hrc1⟩, Or.inr (Or.inr ⟨rc2, rfl, hrc2, ?_⟩)⟩)))
  simp [stepTask, h1, h2, he1, hrc1, he2, hrc2]

/-- C9: after one dispatcher iteration, either the task succeeded and exactly
its trackingId was appended to the ledger file and consed onto the in-memory
set within that same iteration, or the iteration left both the ledger file and
the in-memory set unchanged (Skipped, Failed, and abort paths). -/
theorem c9_confirmed (exec : List String → Option Int) (cfg : RunConfig)
    (st : DispatchState) (t : DownloadTask) :
    ((stepTask exec cfg st t).1.success_count = st.success_count + 1 ∧
      (stepTask exec cfg st t).1.ledger = st.ledger ++ [trackingIdOf t] ∧
      (stepTask exec cfg st t).1.downloaded_ids = trackingIdOf t :: st.downloaded_ids) ∨
    ((stepTask exec cfg st t).1.success_count = st.success_count ∧
      (stepTask exec cfg st t).1.ledger = st.ledger ∧
      (stepTask exec cfg st t).1.downloaded_ids = st.downloaded_ids) := by
  rcases stepTask_cases exec cfg st t with
    ⟨-, he⟩ | ⟨-, -, he⟩ | ⟨-, -, -, he⟩ | ⟨-, -, -, he⟩ |
    ⟨-, -, -, ⟨-, he⟩ | ⟨-, he⟩ | ⟨-, -, -, he⟩⟩
  · rw [he]; exact Or.inr ⟨rfl, rfl, rfl⟩
  · rw [he]; exact Or.inr ⟨rfl, rfl, rfl⟩
  · rw [he]; exact Or.inr ⟨rfl, rfl, rfl⟩
  · rw [he]; exact Or.inl ⟨rfl, rfl, rfl⟩
  · rw [he]; exact Or.inr ⟨rfl, rfl, rfl⟩
  · rw [he]; exact Or.inl ⟨rfl, rfl, rfl⟩
  · rw [he]; exact Or.inr ⟨rfl, rfl, rfl⟩

/-- C10: the printed total is by construction the sum of the three counters,
and one dispatcher iteration either completes (break flag false) and bumps
exactly one of the three counters by one, or aborts (break flag true), leaves
every counter unchanged, and ends the whole run at that point. -/
theorem c10_confirmed (exec : List String → Option Int) (cfg : RunConfig)
    (st : DispatchState) (t : DownloadTask) :
    printedTotal st = st.success_count + st.skipped_count + st.failed_count ∧
    (((stepTask exec cfg st t).2 = false ∧
        printedTotal (stepTask exec cfg st t).1 = printedTotal st + 1 ∧
        (((stepTask exec cfg st t).1.success_count = st.success_count + 1 ∧
            (stepTask exec cfg st t).1.skipped_count = st.skipped_count ∧
            (stepTask exec cfg st t).1.failed_count = st.failed_count) ∨
          ((stepTask exec cfg st t).1.success_count = st.success_count ∧
            (stepTask exec cfg st t).1.skipped_count = st.skipped_count + 1 ∧
            (stepTask exec cfg st t).1.failed_count = st.failed_count) ∨
          ((stepTask exec cfg st t).1.success_count = st.success_count ∧
            (stepTask exec cfg st t).1.skipped_count = st.skipped_count ∧
            (stepTask exec cfg st t).1.failed_count = st.failed_count + 1))) ∨
      ((stepTask exec cfg st t).2 = true ∧
        (stepTask exec cfg st t).1.success_count = st.success_count ∧
        (stepTask exec cfg st t).1.skipped_count = st.skipped_count ∧
        (stepTask exec cfg st t).1.failed_count = st.failed_count ∧
        ∀ ts, runTasks exec cfg st (t :: ts) = (stepTask exec cfg st t).1)) := by
  refine ⟨rfl, ?_⟩
  rcases stepTask_cases exec cfg st t with
    ⟨-, he⟩ | ⟨-, -, he⟩ | ⟨-, -, -, he⟩ | ⟨-, -, -, he⟩ |
    ⟨-, -, -, ⟨-, he⟩ | ⟨-, he⟩ | ⟨-, -, -, he⟩⟩
  · rw [he]
    refine Or.inl ⟨rfl, ?_, Or.inr (Or.inr ⟨rfl, rfl, rfl⟩)⟩
    show st.success_count + st.skipped_count + (st.failed_count + 1) =
      st.success_count + st.skipped_count + st.failed_count + 1
    omega
  · rw [he]
    refine Or.inl ⟨rfl, ?_, Or.inr (Or.inl ⟨rfl, rfl, rfl⟩)⟩
    show st.success_count + (st.skipped_count + 1) + st.failed_count =
      st.success_count + st.skipped_count + st.failed_count + 1
    omega
  · refine Or.inr ⟨by rw [he], by rw [he], by rw [he], by rw [he], fun ts => ?_⟩
    rw [runTasks_cons, he]
    simp
  · rw [he]
    refine Or.inl ⟨rfl, ?_, Or.inl ⟨rfl, rfl, rfl⟩⟩
    show st.success_count + 1 + st.skipped_count + st.failed_count =
      st.success_count + st.skipped_count + st.failed_count + 1
    omega
  · refine Or.inr ⟨by rw [he], by rw [he], by rw [he], by rw [he], fun ts => ?_⟩
    rw [runTasks_cons, he]
    simp
  · rw [he]
    refine Or.inl ⟨rfl, ?_, Or.inl ⟨rfl, rfl, rfl⟩⟩
    show st.success_count + 1 + st.skipped_count + st.failed_count =
      st.success_count + st.skipped_count + st.failed_count + 1
    omega
  · rw [he]
    refine Or.inl ⟨rfl, ?_, Or.inr (Or.inr ⟨rfl, rfl, rfl⟩)⟩
    show st.success_count + st.skipped_count + (st.failed_count + 1) =
      st.success_count + st.skipped_count + st.failed_count + 1
    omega

/-- C7: when a dispatcher iteration ends with the break flag set, the whole
remaining task list is dropped (the run equals that iteration's state), the
binary-missing flag is set for the summary, the counters are exactly as they
were before the task, and some invocation failed to start; conversely, when
every invocation starts (returns an exit status, zero or not), no iteration
ever sets the break flag — a nonzero exit status alone never aborts the run. -/
theorem c7_confirmed (exec : List String → Option Int) (cfg : RunConfig)
    (st : DispatchState) (t : DownloadTask) :
    ((stepTask exec cfg st t).2 = true →
      (∀ ts, runTasks exec cfg st (t :: ts) = (stepTask exec cfg st t).1) ∧
      (stepTask exec cfg st t).1.yt_dlp_missing = true ∧
      (stepTask exec cfg st t).1.success_count = st.success_count ∧
      (stepTask exec cfg st t).1.skipped_count = st.skipped_count ∧
      (stepTask exec cfg st t).1.failed_count = st.failed_count ∧
      (∃ cmd, exec cmd = none)) ∧
    ((∀ cmd, exec cmd ≠ none) → (stepTask exec cfg st t).2 = false) := by
  rcases stepTask_cases exec cfg st t with
    ⟨-, he⟩ | ⟨-, -, he⟩ | ⟨-, -, h1, he⟩ | ⟨-, -, -, he⟩ |
    ⟨-, -, -, ⟨h2, he⟩ | ⟨-, he⟩ | ⟨-, -, -, he⟩⟩
  · exact ⟨fun hab => by simp [he] at hab, fun _ => by rw [he]⟩
  · exact ⟨fun hab => by simp [he] at hab, fun _ => by rw [he]⟩
  · refine ⟨fun _ => ⟨fun ts => ?_, by rw [he], by rw [he],
      by rw [he], by rw [he], ⟨cmd1Of cfg t, h1⟩⟩, fun htot => absurd h1 (htot _)⟩
    rw [runTasks_cons, he]
    simp
  · exact ⟨fun hab => by simp [he] at hab, fun _ => by rw [he]⟩
  · refine ⟨fun _ => ⟨fun ts => ?_, by rw [he], by rw [he],
      by rw [he], by rw [he], ⟨cmd2Of cfg t, h2⟩⟩, fun htot => absurd h2 (htot _)⟩
    rw [runTasks_cons, he]
    simp
  · exact ⟨fun hab => by simp [he] at hab, fun _ => by rw [he]⟩
  · exact ⟨fun hab => by simp [he] at hab, fun _ => by rw [he]⟩

/-- C7, witness: with an oracle that never starts (executable missing) the
break flag is set, the run stops after the first task of two with its counters
untouched and the missing flag raised; with an oracle that always exits with
status 1 (nonzero), the break flag is not set. -/
theorem c7_witness :
    ((stepTask (fun _ => (none : Option Int)) ⟨".", "audio", "yt-dlp"⟩ (initState [])
        ⟨"http://l", some "n", some "x"⟩).1.yt_dlp_missing = true ∧
      runTasks (fun _ => (none : Option Int)) ⟨".", "audio", "yt-dlp"⟩ (initState [])
          [⟨"http://l", some "n", some "x"⟩, ⟨"http://m", some "p", some "y"⟩] =
        (stepTask (fun _ => (none : Option Int)) ⟨".", "audio", "yt-dlp"⟩ (initState [])
          ⟨"http://l", some "n", some "x"⟩).1) ∧
    (stepTask (fun _ => (some 1 : Option Int)) ⟨".", "audio", "yt-dlp"⟩ (initState [])
      ⟨"http://l", some "n", some "x"⟩).2 = false := by
  refine ⟨⟨?_, ?_⟩, ?_⟩
  · exact ((c7_confirmed (fun _ => none) ⟨".", "audio", "yt-dlp"⟩ (initState [])
      ⟨"http://l", some "n", some "x"⟩).1 (by decide)).2.1
  · exact ((c7_confirmed (fun _ => none) ⟨".", "audio", "yt-dlp"⟩ (initState [])
      ⟨"http://l", some "n", some "x"⟩).1 (by decide)).1 [⟨"http://m", some "p", some "y"⟩]
  · exact (c7_confirmed (fun _ => some 1) ⟨".", "audio", "yt-dlp"⟩ (initState [])
      ⟨"http://l", some "n", some "x"⟩).2 (fun cmd => by simp)

/-- C2, counterexample: a task whose trackingId is the empty string (an id
field holding "") is not gated: the dispatcher attempts it (the trace grows)
and, with a downloader exiting 0, counts it Succeeded rather than Failed —
the gate of main.py line 328 compares against the sentinel only. -/
theorem c2_counterexample :
    trackingIdOf ⟨"http://l", some "N", some ""⟩ = "" ∧
      (stepTask (fun _ => (some 0 : Option Int)) ⟨".", "audio", "yt-dlp"⟩ (initState [])
        ⟨"http://l", some "N", some ""⟩).1.failed_count = 0 ∧
      (stepTask (fun _ => (some 0 : Option Int)) ⟨".", "audio", "yt-dlp"⟩ (initState [])
        ⟨"http://l", some "N", some ""⟩).1.success_count = 1 ∧
      (stepTask (fun _ => (some 0 : Option Int)) ⟨".", "audio", "yt-dlp"⟩ (initState [])
        ⟨"http://l", some "N", some ""⟩).1.trace ≠ [] := by
  refine ⟨rfl, ?_, ?_, ?_⟩ <;> decide

/-- C2, amended: a task is counted Failed with no downloader invocation
exactly when its trackingId equals the placeholder sentinel "UnknownID"
(which is also the default when the id field is absent); any other
trackingId — the empty string included — that is not in the ledger set is
attempted (the invocation trace grows). -/
theorem c2_amended (exec : List String → Option Int) (cfg : RunConfig)
    (st : DispatchState) (t : DownloadTask) :
    (trackingIdOf t = "UnknownID" →
      stepTask exec cfg st t = ({ st with failed_count := st.failed_count + 1 }, false)) ∧
    (trackingIdOf t ≠ "UnknownID" → trackingIdOf t ∉ st.downloaded_ids →
      (stepTask exec cfg st t).1.trace ≠ st.trace) := by
  constructor
  · intro h
    simp [stepTask, h]
  · intro h hm
    rcases stepTask_cases exec cfg st t with
      ⟨h1, -⟩ | ⟨-, h2, -⟩ | ⟨-, -, -, he⟩ | ⟨-, -, -, he⟩ |
      ⟨-, -, -, ⟨-, he⟩ | ⟨-, he⟩ | ⟨-, -, -, he⟩⟩
    · exact absurd h1 h
    · exact absurd h2 hm
    all_goals rw [he]; intro hc; simp at hc

/-- C2, witness for the amended theorem: a task with no id field defaults to
the sentinel and is counted Failed without any invocation; a task with a fresh
ordinary id is attempted. -/
theorem c2_witness :
    stepTask (fun _ => (some 0 : Option Int)) ⟨".", "audio", "yt-dlp"⟩ (initState [])
        ⟨"http://l", none, none⟩ =
      ({ initState [] with failed_count := 1 }, false) ∧
    (stepTask (fun _ => (some 0 : Option Int)) ⟨".", "audio", "yt-dlp"⟩ (initState ["a"])
        ⟨"http://l", some "N", some "b"⟩).1.trace ≠ (initState ["a"]).trace := by
  constructor
  · exact (c2_amended (fun _ => (some 0 : Option Int)) ⟨".", "audio", "yt-dlp"⟩
      (initState []) ⟨"http://l", none, none⟩).1 rfl
  · exact (c2_amended (fun _ => (some 0 : Option Int)) ⟨".", "audio", "yt-dlp"⟩
      (initState ["a"]) ⟨"http://l", some "N", some "b"⟩).2 (by decide) (by decide)

/-- C8, counterexample: a task whose trackingId is the placeholder sentinel is
counted Failed by the first gate even when the ledger set already contains
that very string, so "every task counted Skipped" fails (main.py line 328 runs
before the dedup gate of line 329). -/
theorem c8_counterexample :
    (∀ t ∈ ([⟨"http://l", some "n", some "UnknownID"⟩] : List DownloadTask),
        trackingIdOf t ∈ (initState ["UnknownID"]).downloaded_ids) ∧
      (runTasks (fun _ => (some 0 : Option Int)) ⟨".", "audio", "yt-dlp"⟩
          (initState ["UnknownID"])
          [⟨"http://l", some "n", some "UnknownID"⟩]).skipped_count = 0 ∧
      (runTasks (fun _ => (some 0 : Option Int)) ⟨".", "audio", "yt-dlp"⟩
          (initState ["UnknownID"])
          [⟨"http://l", some "n", some "UnknownID"⟩]).failed_count = 1 := by
  refine ⟨by decide, ?_, ?_⟩ <;> decide

/-- C8, amended: on a task list in which no trackingId is the placeholder
sentinel, running the dispatcher with an in-memory set that already contains
every task's trackingId performs zero downloader invocations and counts every
task as Skipped, leaving every other state component (set, ledger file, other
counters, flag, trace) unchanged; in particular a second run after a fully
successful first run is a download no-op. -/
theorem c8_amended (exec : List String → Option Int) (cfg : RunConfig) :
    ∀ (tasks : List DownloadTask) (st : DispatchState),
      (∀ t ∈ tasks, trackingIdOf t ∈ st.downloaded_ids) →
      (∀ t ∈ tasks, trackingIdOf t ≠ "UnknownID") →
      runTasks exec cfg st tasks =
        { st with skipped_count := st.skipped_count + tasks.length } := by
  intro tasks
  induction tasks with
  | nil =>
    intro st _ _
    simp [runTasks]
  | cons t ts ih =>
    intro st hmem hun
    have h1 : trackingIdOf t ≠ "UnknownID" := hun t (List.mem_cons_self t ts)
    have h2 : trackingIdOf t ∈ st.downloaded_ids := hmem t (List.mem_cons_self t ts)
    have hstep : stepTask exec cfg st t =
        ({ st with skipped_count := st.skipped_count + 1 }, false) := by
      simp [stepTask, h1, h2]
    have hrest := ih { st with skipped_count := st.skipped_count + 1 }
      (fun x hx => hmem x (List.mem_cons_of_mem t hx))
      (fun x hx => hun x (List.mem_cons_of_mem t hx))
    rw [runTasks_cons, hstep]
    simp only [if_neg]
    rw [hrest]
    have harith : st.skipped_count + 1 + ts.length = st.skipped_count + (t :: ts).length := by
      simp [List.length_cons]
      omega
    simp [harith]

/-- C8, witness for the amended theorem: one fresh-format task whose id is
already in the loaded set is skipped with no invocation. -/
theorem c8_witness :
    runTasks (fun _ => (some 0 : Option Int)) ⟨".", "audio", "yt-dlp"⟩ (initState ["x"])
        [⟨"http://l", some "n", some "x"⟩] =
      { initState ["x"] with skipped_count := 1 } :=
  (c8_amended (fun _ => (some 0 : Option Int)) ⟨".", "audio", "yt-dlp"⟩
      [⟨"http://l", some "n", some "x"⟩] (initState ["x"]) (by decide) (by decide)).trans
    (by decide)

/-- C1, counterexample: two distinct episodes (ids e1 and e2) whose
descriptions carry the same link produce only ONE task (for e1) — the
`unique_links_found` set of main.py line 294 lives outside the episode loop,
so the dedup is by link across episodes, and no task with trackingId e2 is
emitted.  The extractor used returns the description itself as the only link. -/
theorem c1_counterexample :
    normalizeRun (fun d => if d = "" then [] else [d])
        [⟨"A", "e1", "https://youtu.be/abc"⟩, ⟨"B", "e2", "https://youtu.be/abc"⟩] =
      [⟨"https://youtu.be/abc", some "A", some "e1"⟩] ∧
      ∀ t ∈ normalizeRun (fun d => if d = "" then [] else [d])
          [⟨"A", "e1", "https://youtu.be/abc"⟩, ⟨"B", "e2", "https://youtu.be/abc"⟩],
        t.episode_id ≠ some "e2" := by
  refine ⟨by decide, by decide⟩

/-- C1, amended: when two episodes A and B (in that order) both carry the same
single link L in their non-empty descriptions, the Task Normalizer emits
exactly one task — link L (stripped), display name and trackingId from the
FIRST episode; the second episode contributes nothing because the link-dedup
set is shared across episodes within the run. -/
theorem c1_amended (extract : String → List String) (A B : Episode) (L : String)
    (hA : extract A.description = [L]) (hB : extract B.description = [L])
    (hdA : A.description ≠ "") (hdB : B.description ≠ "") (hL : pyStripStr L ≠ "") :
    normalizeRun extract [A, B] = [⟨pyStripStr L, some A.name, some A.id⟩] := by
  simp [normalizeRun, normalizeTasks, addLinks, hA, hB, hdA, hdB, hL]

/-- C1, witness for the amended theorem: concrete episodes sharing one link. -/
theorem c1_witness :
    normalizeRun (fun d => if d = "" then [] else [d])
        [⟨"A", "e1", "https://youtu.be/x"⟩, ⟨"B", "e2", "https://youtu.be/x"⟩] =
      [⟨pyStripStr "https://youtu.be/x", some "A", some "e1"⟩] :=
  c1_amended (fun d => if d = "" then [] else [d])
    ⟨"A", "e1", "https://youtu.be/x"⟩ ⟨"B", "e2", "https://youtu.be/x"⟩
    "https://youtu.be/x" (by decide) (by decide) (by decide) (by decide) (by decide)

/-- Round trip between `List Char` and `String`. -/
theorem toList_asString (l : List Char) : (List.asString l).toList = l := rfl

/-- Round trip between `List Char` and `String`, data form. -/
theorem data_asString (l : List Char) : (List.asString l).data = l := rfl

/-- Round trip under a map. -/
theorem map_toList_asString (l : List (List Char)) :
    l.map (String.toList ∘ List.asString) = l := by
  simp [Function.comp_def, data_asString]

/-- C6, counterexample: the line "a;b;c;d" has four semicolon-delimited
fields, not three, yet the parser does not skip it: `split(';', 2)` caps the
split at two separators, so the line yields an item whose link is the
remainder "c;d" (main.py line 116). -/
theorem c6_counterexample :
    (splitStr ';' "a;b;c;d").length ≠ 3 ∧
      fetch_youtube_playlist_items (some ⟨0, "a;b;c;d"⟩) =
        some [⟨"c;d", some "b", some "a"⟩] := by
  exact ⟨by decide, by decide⟩

/-- C6, amended: a zero exit status with empty output yields an empty item
list; with a zero exit status the fetch never fails (malformed lines are not
fatal); a line with fewer than three semicolon-delimited fields (fewer than
two semicolons) is skipped; and a line with three or more fields yields one
item whose id and title are the first two trimmed fields and whose link is the
trimmed remainder of the line after the second semicolon. -/
theorem c6_amended :
    (∀ r : ProcResult, r.returncode = 0 → r.stdout = "" →
        fetch_youtube_playlist_items (some r) = some []) ∧
      (∀ r : ProcResult, r.returncode = 0 → fetch_youtube_playlist_items (some r) ≠ none) ∧
      (∀ line, (splitStr ';' line).length < 3 → processLine line = none) ∧
      (∀ line, 3 ≤ (splitStr ';' line).length →
        processLine line = some
          ⟨pyStripStr (joinSemis ((splitStr ';' line).drop 2)),
            some (pyStripStr ((splitStr ';' line).getD 1 "")),
            some (pyStripStr ((splitStr ';' line).getD 0 ""))⟩) := by
  refine ⟨?_, ?_, ?_, ?_⟩
  · intro r h0 hs
    simp [fetch_youtube_playlist_items, h0, hs]
  · intro r h0
    simp only [fetch_youtube_playlist_items, h0]
    by_cases hs : r.stdout = "" <;> simp [hs]
  · intro line hlen
    rcases hsp : splitOnCharList ';' line.data with _ | ⟨a, _ | ⟨b, _ | ⟨c, rest⟩⟩⟩
    · simp [processLine, splitSemiMax2, hsp]
    · simp [processLine, splitSemiMax2, hsp]
    · simp [processLine, splitSemiMax2, hsp]
    · rw [splitStr] at hlen
      simp [hsp] at hlen
      omega
  · intro line hlen
    rcases hsp : splitOnCharList ';' line.data with _ | ⟨a, _ | ⟨b, _ | ⟨c, rest⟩⟩⟩
    · rw [splitStr] at hlen
      simp [hsp] at hlen
    · rw [splitStr] at hlen
      simp [hsp] at hlen
    · rw [splitStr] at hlen
      simp [hsp] at hlen
    · simp [processLine, splitSemiMax2, hsp, splitStr, joinSemis, toList_asString,
        data_asString, map_toList_asString, List.map_map, List.map_id]

/-- C6, witness for the amended theorem: empty output with exit 0 parses to an
empty list, and a well-formed three-field line parses to one trimmed item. -/
theorem c6_witness :
    fetch_youtube_playlist_items (some ⟨0, ""⟩) = some [] ∧
      processLine "x; y ;z" = some ⟨"z", some "y", some "x"⟩ := by
  constructor
  · exact c6_amended.1 ⟨0, ""⟩ rfl rfl
  · exact (c6_amended.2.2.2 "x; y ;z" (by decide)).trans (by decide)

/-- The replacement step only produces characters of the kept class. -/
theorem legal_replaceIllegal (c : Char) : legalChar (replaceIllegal c) = true := by
  unfold replaceIllegal
  split
  · assumption
  · decide

/-- Characters of the collapsed list are spaces or input characters. -/
theorem mem_collapseAux : ∀ (b : Bool) (l : List Char) (c : Char),
    c ∈ collapseAux b l → c = ' ' ∨ c ∈ l := by
  intro b l
  induction l generalizing b with
  | nil => intro c hc; cases hc
  | cons d cs ih =>
    intro c hc
    unfold collapseAux at hc
    by_cases hd : isSpaceChar d
    · rw [if_pos hd] at hc
      cases b with
      | true =>
        rw [if_pos rfl] at hc
        rcases ih true c hc with h | h
        · exact Or.inl h
        · exact Or.inr (List.mem_cons_of_mem d h)
      | false =>
        rw [if_neg Bool.false_ne_true] at hc
        rcases List.mem_cons.mp hc with h | h
        · exact Or.inl h
        · rcases ih true c h with h2 | h2
          · exact Or.inl h2
          · exact Or.inr (List.mem_cons_of_mem d h2)
    · rw [if_neg hd] at hc
      rcases List.mem_cons.mp hc with h | h
      · exact Or.inr (h ▸ List.mem_cons_self d cs)
      · rcases ih false c h with h2 | h2
        · exact Or.inl h2
        · exact Or.inr (List.mem_cons_of_mem d h2)

/-- After skipping a whitespace run, the collapsed list starts with a
non-whitespace character. -/
theorem head?_collapseAux_true : ∀ (l : List Char) (c : Char),
    (collapseAux true l).head? = some c → isSpaceChar c = false := by
  intro l
  induction l with
  | nil => intro c hc; cases hc
  | cons d cs ih =>
    intro c hc
    unfold collapseAux at hc
    by_cases hd : isSpaceChar d
    · rw [if_pos hd] at hc
      rw [if_pos rfl] at hc
      exact ih c hc
    · rw [if_neg hd] at hc
      simp only [List.head?_cons, Option.some.injEq] at hc
      subst hc
      exact Bool.not_eq_true _ ▸ by simpa using hd

/-- Every whitespace character of the collapsed list is a plain space. -/
theorem spaces_collapseAux : ∀ (b : Bool) (l : List Char),
    ∀ c ∈ collapseAux b l, isSpaceChar c = true → c = ' ' := by
  intro b l
  induction l generalizing b with
  | nil => intro c hc; cases hc
  | cons d cs ih =>
    intro c hc hsp
    unfold collapseAux at hc
    by_cases hd : isSpaceChar d
    · rw [if_pos hd] at hc
      cases b with
      | true =>
        rw [if_pos rfl] at hc
        exact ih true c hc hsp
      | false =>
        rw [if_neg Bool.false_ne_true] at hc
        rcases List.mem_cons.mp hc with h | h
        · exact h
        · exact ih true c h hsp
    · rw [if_neg hd] at hc
      rcases List.mem_cons.mp hc with h | h
      · subst h; rw [hsp] at hd; exact absurd rfl hd
      · exact ih false c h hsp

/-- The collapsed list has no two adjacent whitespace characters. -/
theorem noTwoSpaces_collapseAux : ∀ (b : Bool) (l : List Char),
    NoTwoSpaces (collapseAux b l) := by
  intro b l
  induction l generalizing b with
  | nil => exact List.chain'_nil
  | cons d cs ih =>
    unfold collapseAux
    by_cases hd : isSpaceChar d
    · rw [if_pos hd]
      cases b with
      | true => simpa using ih true
      | false =>
        rw [if_neg Bool.false_ne_true]
        refine List.chain'_cons'.mpr ⟨?_, ih true⟩
        intro y hy
        have := head?_collapseAux_true cs y hy
        simp [this]
    · rw [if_neg hd]
      refine List.chain'_cons'.mpr ⟨?_, ih false⟩
      intro y hy
      simp only [Bool.not_eq_true] at hd
      simp [hd]

/-- The output of the collapse step satisfies the collapse invariant. -/
theorem collapsed_collapseSpaces (l : List Char) : Collapsed (collapseSpaces l) :=
  ⟨spaces_collapseAux false l, noTwoSpaces_collapseAux false l⟩

/-- On a collapsed list the collapse step is the identity (and it is also the
identity from the mid-run state when the list does not start with
whitespace). -/
theorem collapseAux_fix : ∀ l : List Char, Collapsed l →
    collapseAux false l = l ∧
      ((∀ c, l.head? = some c → isSpaceChar c = false) → collapseAux true l = l) := by
  intro l
  induction l with
  | nil => exact fun _ => ⟨rfl, fun _ => rfl⟩
  | cons d cs ih =>
    intro hg
    have hgcs : Collapsed cs :=
      ⟨fun c hc => hg.1 c (List.mem_cons_of_mem d hc), hg.2.tail⟩
    constructor
    · by_cases hd : isSpaceChar d
      · have hds : d = ' ' := hg.1 d (List.mem_cons_self d cs) hd
        unfold collapseAux
        rw [if_pos hd, if_neg Bool.false_ne_true]
        have hcs : collapseAux true cs = cs := by
          refine (ih hgcs).2 ?_
          intro c hc
          cases cs with
          | nil => cases hc
          | cons e es =>
            have hce : c = e := by simpa using hc.symm
            subst hce
            have hR := (List.chain'_cons'.mp hg.2).1 c (by simp)
            by_cases hsc : isSpaceChar c
            · exact absurd ⟨hd, hsc⟩ hR
            · simpa using hsc
        rw [hcs, hds]
      · unfold collapseAux
        rw [if_neg hd]
        rw [(ih hgcs).1]
    · intro hh
      have hd : isSpaceChar d = false := hh d rfl
      unfold collapseAux
      rw [if_neg (by simp [hd])]
      rw [(ih hgcs).1]

/-- The head kept by `dropWhile` fails the predicate. -/
theorem head?_dropWhile (p : Char → Bool) : ∀ (l : List Char) (c : Char),
    (List.dropWhile p l).head? = some c → p c = false := by
  intro l
  induction l with
  | nil => intro c hc; cases hc
  | cons d cs ih =>
    intro c hc
    rw [List.dropWhile_cons] at hc
    by_cases hd : p d
    · rw [if_pos hd] at hc
      exact ih c hc
    · rw [if_neg hd] at hc
      have : d = c := by simpa using hc
      subst this
      simpa using hd

/-- A non-empty prefix has the same head. -/
theorem head?_of_front {s l : List Char} (h : s <+: l) (hs : s ≠ []) :
    s.head? = l.head? := by
  obtain ⟨t, rfl⟩ := h
  cases s with
  | nil => exact absurd rfl hs
  | cons a s2 => rfl

/-- The stripped list does not end in whitespace. -/
theorem getLast?_pyStrip (l : List Char) (c : Char)
    (hc : (pyStrip l).getLast? = some c) : isSpaceChar c = false := by
  simp only [pyStrip] at hc
  have hne : List.rdropWhile isSpaceChar (List.dropWhile isSpaceChar l) ≠ [] :=
    fun h => by rw [h] at hc; cases hc
  rw [List.getLast?_eq_getLast _ hne] at hc
  have h2 : (List.rdropWhile isSpaceChar (List.dropWhile isSpaceChar l)).getLast hne = c := by
    simpa using hc
  have h3 := List.rdropWhile_last_not isSpaceChar (List.dropWhile isSpaceChar l) hne
  rw [h2] at h3
  simpa using h3

/-- The stripped list does not start with whitespace. -/
theorem head?_pyStrip (l : List Char) (c : Char)
    (hc : (pyStrip l).head? = some c) : isSpaceChar c = false := by
  simp only [pyStrip] at hc
  have hne : List.rdropWhile isSpaceChar (List.dropWhile isSpaceChar l) ≠ [] :=
    fun h => by rw [h] at hc; cases hc
  have hpfx := List.rdropWhile_prefix isSpaceChar (List.dropWhile isSpaceChar l)
  rw [head?_of_front hpfx hne] at hc
  exact head?_dropWhile isSpaceChar l c hc

/-- `dropWhile` is the identity when the head fails the predicate. -/
theorem dropWhile_eq_self_of_head (p : Char → Bool) (l : List Char)
    (h : ∀ c, l.head? = some c → p c = false) : List.dropWhile p l = l := by
  cases l with
  | nil => rfl
  | cons d cs =>
    have hd := h d rfl
    rw [List.dropWhile_cons, if_neg (by simp [hd])]

/-- Stripping is the identity on a list that neither starts nor ends in
whitespace. -/
theorem pyStrip_eq_self (l : List Char)
    (hh : ∀ c, l.head? = some c → isSpaceChar c = false)
    (hl : ∀ c, l.getLast? = some c → isSpaceChar c = false) : pyStrip l = l := by
  unfold pyStrip
  rw [dropWhile_eq_self_of_head _ _ hh]
  exact List.rdropWhile_eq_self_iff.mpr (fun hne => by
    have h := hl (l.getLast hne) (List.getLast?_eq_getLast l hne)
    simp [h])

/-- Stripping preserves the collapse invariant. -/
theorem collapsed_pyStrip {l : List Char} (h : Collapsed l) : Collapsed (pyStrip l) := by
  constructor
  · intro c hc hsp
    refine h.1 c ?_ hsp
    have hpfx := List.rdropWhile_prefix isSpaceChar (List.dropWhile isSpaceChar l)
    have h1 : pyStrip l ⊆ List.dropWhile isSpaceChar l := hpfx.sublist.subset
    exact (List.dropWhile_suffix _).sublist.subset (h1 hc)
  · have hpfx := List.rdropWhile_prefix isSpaceChar (List.dropWhile isSpaceChar l)
    have hchain : NoTwoSpaces (List.dropWhile isSpaceChar l) :=
      h.2.suffix (List.dropWhile_suffix isSpaceChar)
    exact List.Chain'.prefix hchain hpfx

/-- Truncation preserves the collapse invariant. -/
theorem collapsed_take {l : List Char} (n : Nat) (h : Collapsed l) :
    Collapsed (l.take n) :=
  ⟨fun c hc hsp => h.1 c (List.take_subset n l hc) hsp, h.2.take n⟩

/-- Every character surviving to the intermediate value is in the kept class. -/
theorem legal_sanitizeCore (name : List Char) :
    ∀ c ∈ sanitizeCore name, legalChar c = true := by
  intro c hc
  have h1 : c ∈ collapseSpaces (name.map replaceIllegal) := by
    have hpfx := List.rdropWhile_prefix isSpaceChar
      (List.dropWhile isSpaceChar (collapseSpaces (name.map replaceIllegal)))
    have hp : pyStrip (collapseSpaces (name.map replaceIllegal)) ⊆
        List.dropWhile isSpaceChar (collapseSpaces (name.map replaceIllegal)) :=
      hpfx.sublist.subset
    exact (List.dropWhile_suffix _).sublist.subset (hp hc)
  rcases mem_collapseAux false _ c h1 with h | h
  · subst h; decide
  · rcases List.mem_map.mp h with ⟨d, -, rfl⟩
    exact legal_replaceIllegal d

/-- The replacement map is the identity on kept characters. -/
theorem map_replaceIllegal_id (l : List Char) (h : ∀ c ∈ l, legalChar c = true) :
    l.map replaceIllegal = l := by
  induction l with
  | nil => rfl
  | cons d cs ih =>
    have hd : replaceIllegal d = d := by
      unfold replaceIllegal
      rw [if_pos (h d (List.mem_cons_self d cs))]
    simp only [List.map_cons, hd, ih (fun c hc => h c (List.mem_cons_of_mem d hc))]

/-- Truncation keeps the head when the bound is positive. -/
theorem head?_take_of_pos (l : List Char) (n : Nat) (hn : 0 < n) :
    (l.take n).head? = l.head? := by
  cases l with
  | nil => simp
  | cons d cs =>
    cases n with
    | zero => exact absurd hn (by omega)
    | succ m => rfl

/-- C4, counterexample: `sanitize` is not idempotent.  On a 152-character
name whose collapsed-trimmed form is 149 letters, a space, then two letters,
the truncation `name[:150]` of main.py line 131 cuts right after the space, so
the first pass ends in a space; the second pass strips that trailing space and
returns a 149-character string. -/
theorem c4_counterexample :
    sanitize_filename (sanitize_filename (List.replicate 149 'a' ++ " bb".toList)) ≠
      sanitize_filename (List.replicate 149 'a' ++ " bb".toList) := by
  decide

/-- C4, amended: `sanitize(sanitize(name)) = sanitize(name)` holds for every
input whose sanitized output does not end in a whitespace character — the only
failure mode is the 150-character truncation cutting directly after a space
(in particular, idempotence holds whenever the collapsed-trimmed intermediate
is at most 150 characters long, hence for all inputs of length at most 150). -/
theorem c4_amended (name : List Char)
    (h : isSpaceChar ((sanitize_filename name).getLastD '0') = false) :
    sanitize_filename (sanitize_filename name) = sanitize_filename name := by
  by_cases hcore : sanitizeCore name = []
  · have h1 : sanitize_filename name = "Untitled".toList := by
      simp [sanitize_filename, hcore]
    rw [h1]
    decide
  · have h1 : sanitize_filename name = (sanitizeCore name).take 150 := by
      simp [sanitize_filename, hcore]
    have htne : (sanitizeCore name).take 150 ≠ [] := by
      simp [List.take_eq_nil_iff, hcore]
    have hhead : ∀ c, ((sanitizeCore name).take 150).head? = some c →
        isSpaceChar c = false := by
      intro c hc
      rw [head?_take_of_pos _ 150 (by omega)] at hc
      exact head?_pyStrip (collapseSpaces (name.map replaceIllegal)) c hc
    have hlast : ∀ c, ((sanitizeCore name).take 150).getLast? = some c →
        isSpaceChar c = false := by
      intro c hc
      rw [h1, List.getLastD_eq_getLast?, hc] at h
      simpa using h
    have hcoll : Collapsed ((sanitizeCore name).take 150) :=
      collapsed_take 150
        (collapsed_pyStrip (collapsed_collapseSpaces (name.map replaceIllegal)))
    have hlegal : ∀ c ∈ (sanitizeCore name).take 150, legalChar c = true :=
      fun c hc => legal_sanitizeCore name c (List.take_subset 150 _ hc)
    have hmap : ((sanitizeCore name).take 150).map replaceIllegal =
        (sanitizeCore name).take 150 := map_replaceIllegal_id _ hlegal
    have hcollapse : collapseSpaces ((sanitizeCore name).take 150) =
        (sanitizeCore name).take 150 := (collapseAux_fix _ hcoll).1
    have hstrip : pyStrip ((sanitizeCore name).take 150) =
        (sanitizeCore name).take 150 := pyStrip_eq_self _ hhead hlast
    have hcore2 : sanitizeCore ((sanitizeCore name).take 150) =
        (sanitizeCore name).take 150 := by
      calc sanitizeCore ((sanitizeCore name).take 150)
          = pyStrip (collapseSpaces (((sanitizeCore name).take 150).map replaceIllegal)) :=
            rfl
        _ = (sanitizeCore name).take 150 := by rw [hmap, hcollapse, hstrip]
    have hlen : ((sanitizeCore name).take 150).length ≤ 150 := by
      simp [List.length_take]
    rw [h1]
    unfold sanitize_filename
    rw [hcore2, if_neg htne]
    exact List.take_of_length_le hlen

/-- C4, witness for the amended theorem: the sanitized form of "a b!" is
"a b_", which does not end in whitespace, so sanitizing twice equals
sanitizing once there. -/
theorem c4_witness :
    sanitize_filename (sanitize_filename "a b!".toList) =
      sanitize_filename "a b!".toList :=
  c4_amended "a b!".toList (by decide)
